import Mathlib

/-!
Shallow embedding of the Septago crossword engine
(`crossword_app/septago_crossword/geometry.py` and `engine.py`) and proofs of
the specified reducer properties.

Python dictionaries are modelled as association lists with Python's update
semantics (replace in place when the key exists, append otherwise); `frozenset`
membership is list membership; strings are Lean `String`s manipulated through
their character lists so that every operation is kernel-computable.
-/

namespace Septago

/-- Cells are (row, column) integer pairs, as `geometry.Cell`. -/
abbrev Cell := Int × Int

/-- The five fixed slot identifiers of `geometry.SlotId`. -/
inductive SlotId where
  | h1 | h2 | v1 | v2 | hw
deriving DecidableEq, Repr

/-- Orientation "H" or "V" of `geometry.Orientation`. -/
inductive Orientation where
  | H | V
deriving DecidableEq, Repr

/-- Check state "none", "ok" or "bad" of `engine.CheckState`. -/
inductive CheckState where
  | none | ok | bad
deriving DecidableEq, Repr

/-- Association-list lookup, modelling Python `d[k]` / `d.get(k)`. -/
def dGet {κ α : Type} [DecidableEq κ] : List (κ × α) → κ → Option α
  | [], _ => Option.none
  | (k, v) :: rest, key => if k = key then some v else dGet rest key

/-- Python `k in d`. -/
def dMem {κ α : Type} [DecidableEq κ] (d : List (κ × α)) (key : κ) : Bool :=
  (dGet d key).isSome

/-- Python `d[k] = v`: replace the binding in place when the key is present,
append a fresh binding otherwise. -/
def dSet {κ α : Type} [DecidableEq κ] : List (κ × α) → κ → α → List (κ × α)
  | [], key, v => [(key, v)]
  | (k, w) :: rest, key, v =>
    if k = key then (k, v) :: rest else (k, w) :: dSet rest key v

/-- Python `str.upper()` on the ASCII strings the engine handles. -/
def pyUpper (s : String) : String := ⟨s.data.map Char.toUpper⟩

/-- Python `str.lower()` on the ASCII strings the engine handles. -/
def pyLower (s : String) : String := ⟨s.data.map Char.toLower⟩

/-- Python `str.strip()`: drop whitespace from both ends. -/
def pyStrip (s : String) : String :=
  ⟨((s.data.dropWhile Char.isWhitespace).reverse.dropWhile Char.isWhitespace).reverse⟩

/-- Python `list.index` (first index; all callers guard membership first). -/
def pyIndex {α : Type} [DecidableEq α] : List α → α → Nat
  | [], _ => 0
  | x :: rest, y => if x = y then 0 else pyIndex rest y + 1

/-- Accumulator for `s.split(",")`. -/
def splitCommaAux : List Char → List Char → List (List Char)
  | [], acc => [acc.reverse]
  | c :: rest, acc =>
    if c = ',' then acc.reverse :: splitCommaAux rest [] else splitCommaAux rest (c :: acc)

/-- Python `s.split(",")`. -/
def splitComma (s : String) : List (List Char) := splitCommaAux s.data []

/-- Value of an ASCII decimal digit list read left to right. -/
def digitsToNat (ds : List Char) : Nat :=
  ds.foldl (fun n c => 10 * n + (c.toNat - 48)) 0

/-- Python `int(s)` on ASCII decimal strings: optional surrounding whitespace,
optional single sign, at least one digit; `none` models the `ValueError`
path. (Underscore grouping and non-ASCII digits are not modelled.) -/
def pyInt (s : String) : Option Int :=
  let t := ((s.data.dropWhile Char.isWhitespace).reverse.dropWhile Char.isWhitespace).reverse
  match t with
  | [] => Option.none
  | c :: rest =>
    if c = '-' then
      if !rest.isEmpty && rest.all Char.isDigit then some (-(digitsToNat rest : Int))
      else Option.none
    else if c = '+' then
      if !rest.isEmpty && rest.all Char.isDigit then some ((digitsToNat rest : Int))
      else Option.none
    else
      if (c :: rest).all Char.isDigit then some ((digitsToNat (c :: rest) : Int))
      else Option.none

/-- Cell-id parsing of `_on_click_cell` and the givens loop:
`r, c = cell_id.split(","); (int(r), int(c))`, with `none` for the
exception path (wrong number of parts or a non-numeric part). -/
def parse_cell_id (s : String) : Option Cell :=
  match splitComma s with
  | [rs, cs] =>
    match pyInt ⟨rs⟩, pyInt ⟨cs⟩ with
    | some r, some c => some ((r, c) : Cell)
    | _, _ => Option.none
  | _ => Option.none

/-- Mirror of `geometry.GridSpec`. The slot dictionary always carries exactly
the five fixed keys, hence a total function; `cell_to_slots` is read only
through `.get(cell, [])`, hence a total function defaulting to `[]`. -/
structure GridSpec where
  size : Nat
  playable_mask : List (List Bool)
  slots : SlotId → List Cell
  cell_to_slots : Cell → List SlotId
  slot_lengths : SlotId → Nat

/-- Dict insertion order of the `slots` dictionary in `build_grid_spec`. -/
def SLOT_KEYS : List SlotId := [.h1, .h2, .v1, .v2, .hw]

/-- The five slot cell lists of the fixed 5x5 geometry. -/
def fixedSlots : SlotId → List Cell
  | .h1 => (List.range 5).map fun c => ((1 : Int), (c : Int))
  | .h2 => (List.range 5).map fun c => ((3 : Int), (c : Int))
  | .v1 => (List.range 5).map fun r => ((r : Int), (1 : Int))
  | .v2 => (List.range 5).map fun r => ((r : Int), (3 : Int))
  | .hw => [(1, 1), (1, 3), (3, 3), (3, 1)]

/-- Mirror of `geometry.build_grid_spec`: playable rows {1,3} union playable
columns {1,3} on a 5x5 grid. `cell_to_slots` reproduces the insertion-order
construction (slot ids h1, h2, v1, v2, hw filtered by membership). -/
def build_grid_spec : GridSpec where
  size := 5
  playable_mask :=
    (List.range 5).map fun r => (List.range 5).map fun c =>
      r == 1 || r == 3 || c == 1 || c == 3
  slots := fixedSlots
  cell_to_slots := fun cell => SLOT_KEYS.filter fun sid => (fixedSlots sid).contains cell
  slot_lengths := fun sid => (fixedSlots sid).length

/-- Mirror of `geometry.is_playable`. -/
def is_playable (grid : GridSpec) (cell : Cell) : Bool :=
  if cell.1 < 0 ∨ cell.2 < 0 ∨ cell.1 ≥ (grid.size : Int) ∨ cell.2 ≥ (grid.size : Int) then
    false
  else
    (grid.playable_mask.getD cell.1.toNat []).getD cell.2.toNat false

/-- Mirror of `geometry.first_playable_cell`: first mask-true cell in row-major
scan order; `none` models the `RuntimeError` when no playable cell exists. -/
def first_playable_cell (grid : GridSpec) : Option Cell :=
  (((List.range grid.size).map fun r =>
      (List.range grid.size).filterMap fun c =>
        if (grid.playable_mask.getD r []).getD c false
        then some ((((r : Int), (c : Int))) : Cell) else Option.none).flatten).head?

/-- Mirror of `engine.TruthMap`. -/
structure TruthMap where
  truth : List (Cell × String)
deriving DecidableEq, Repr

/-- Mirror of `puzzle_io.Entry` (with the admin-only `initial` field). -/
structure Entry where
  clue : String
  answer : String
  initial : String := ""
deriving DecidableEq, Repr

/-- Mirror of `puzzle_io.Puzzle` as far as the engine reads it: entries keyed
by the five slot ids, the two `meta` keys the engine consults
(`meta.get("id")` as a string when present, and `meta.get("givens")` as a
list of (`str(item["cell"])`, `str(item["letter"])`) pairs when it is a
list), and the filename. -/
structure Puzzle where
  meta_id : Option String := Option.none
  meta_givens : Option (List (String × String)) := Option.none
  entries : SlotId → Entry
  filename : String

/-- Mirror of `engine.build_truth_map`: project each entry answer onto the
slot's ordered cells. Answers are length-validated by `load_puzzle`, so the
`zip` never truncates on a validated puzzle. -/
def build_truth_map (puzzle : Puzzle) (grid : GridSpec) : TruthMap :=
  ⟨SLOT_KEYS.foldl
    (fun acc sid =>
      ((grid.slots sid).zip (puzzle.entries sid).answer.data).foldl
        (fun t p => dSet t p.1 ⟨[p.2]⟩) acc)
    []⟩

/-- Mirror of `engine.GameState`. The `given_cells` frozenset is a list used
only through membership. -/
structure GameState where
  puzzle_id : String
  state_id : String
  grid_letters : List (Cell × String)
  given_cells : List Cell
  active_cell : Cell
  active_slot : SlotId
  orientation : Orientation
  check_marks : List (Cell × CheckState)
  last_action : String := ""
  last_client_seq : Int := 0
deriving DecidableEq, Repr

/-- Event payload: the dictionary fields the reducer reads. `client_seq` holds
the value of `int(payload["client_seq"])` when the field is present and
numeric, and `none` when absent or non-numeric (the code collapses both
cases to `None` before the merge). -/
structure Payload where
  cell_id : Option String := Option.none
  char : Option String := Option.none
  dir : Option String := Option.none
  client_seq : Option Int := Option.none
deriving DecidableEq, Repr

/-- Mirror of `engine.GridEvent`; the runtime event type is a plain string. -/
structure GridEvent where
  type : String
  payload : Payload := {}
deriving DecidableEq, Repr

/-- Mirror of `engine.SLOT_ORDER`. -/
def SLOT_ORDER : List SlotId := [.h1, .h2, .v1, .v2, .hw]

/-- Mirror of `engine._resolve_active_slot`. -/
def _resolve_active_slot (grid : GridSpec) (cell : Cell) (orientation : Orientation)
    (prefer_hw : Bool) : SlotId :=
  let slots := grid.cell_to_slots cell
  let h_opts := slots.filter fun s => s == .h1 || s == .h2
  let v_opts := slots.filter fun s => s == .v1 || s == .v2
  let hw_opts := slots.filter fun s => s == .hw
  if orientation = .H ∧ h_opts ≠ [] then h_opts.headD .h1
  else if orientation = .V ∧ v_opts ≠ [] then v_opts.headD .h1
  else if prefer_hw = true ∧ hw_opts ≠ [] then .hw
  else if h_opts ≠ [] then h_opts.headD .h1
  else if v_opts ≠ [] then v_opts.headD .h1
  else if hw_opts ≠ [] then .hw
  else .h1

/-- Mirror of `engine.clear_checks`. -/
def clear_checks (state : GameState) : GameState :=
  { state with check_marks := state.check_marks.map fun p => (p.1, CheckState.none) }

/-- Mirror of `engine._on_click_cell`. -/
def _on_click_cell (state : GameState) (payload : Payload) (grid : GridSpec) : GameState :=
  match parse_cell_id (payload.cell_id.getD "") with
  | Option.none => { state with last_action := "click:bad_cell_id" }
  | some cell =>
    if is_playable grid cell = false then
      { state with last_action := "click:black_or_oob" }
    else
      let slots := grid.cell_to_slots cell
      let has_h := slots.any fun s => s == .h1 || s == .h2
      let has_v := slots.any fun s => s == .v1 || s == .v2
      let new_orientation :=
        if cell = state.active_cell ∧ has_h = true ∧ has_v = true then
          (if state.orientation = .H then Orientation.V else Orientation.H)
        else state.orientation
      let new_slot := _resolve_active_slot grid cell new_orientation false
      { state with active_cell := cell, orientation := new_orientation,
                   active_slot := new_slot, last_action := "click" }

/-- Mirror of `engine._advance_within_slot`. The `cells[0]` fallback for a
non-member cell assumes the slot list non-empty, as every slot list of the
fixed geometry is. -/
def _advance_within_slot (grid : GridSpec) (slot : SlotId) (cell : Cell) (step : Int) : Cell :=
  let cells := grid.slots slot
  if cells.contains cell = false then cells.headD cell
  else
    let nxt : Int := (pyIndex cells cell : Int) + step
    if nxt < 0 ∨ nxt ≥ (cells.length : Int) then cell
    else cells.getD nxt.toNat cell

/-- Mirror of `engine._on_type_char`. -/
def _on_type_char (state : GameState) (payload : Payload) (grid : GridSpec) : GameState :=
  let ch := pyUpper (payload.char.getD "")
  match ch.data with
  | [c] =>
    if 'A' ≤ c ∧ c ≤ 'Z' then
      if state.given_cells.contains state.active_cell then
        { state with last_action := "type:on_given_ignored" }
      else
        let new_letters := dSet state.grid_letters state.active_cell ch
        let new_state := clear_checks { state with grid_letters := new_letters, last_action := "type" }
        let next_cell := _advance_within_slot grid state.active_slot state.active_cell 1
        { new_state with active_cell := next_cell }
    else { state with last_action := "type:ignored" }
  | _ => { state with last_action := "type:ignored" }

/-- Mirror of `engine._on_backspace`. -/
def _on_backspace (state : GameState) (grid : GridSpec) : GameState :=
  if state.given_cells.contains state.active_cell then
    { state with last_action := "backspace:on_given_ignored" }
  else
    let val := (dGet state.grid_letters state.active_cell).getD ""
    if val ≠ "" then
      let new_letters := dSet state.grid_letters state.active_cell ""
      clear_checks { state with grid_letters := new_letters, last_action := "backspace:clear" }
    else
      let prev_cell := _advance_within_slot grid state.active_slot state.active_cell (-1)
      if prev_cell = state.active_cell then
        { state with last_action := "backspace:at_start" }
      else if state.given_cells.contains prev_cell then
        { state with active_cell := prev_cell, last_action := "backspace:prev_is_given" }
      else
        let new_letters := dSet state.grid_letters prev_cell ""
        clear_checks { state with grid_letters := new_letters, active_cell := prev_cell,
                                  last_action := "backspace:move_clear" }

/-- Mirror of `engine._step_dir`. -/
def _step_dir (d : String) : Int × Int × Orientation :=
  if d = "LEFT" then (0, -1, .H)
  else if d = "RIGHT" then (0, 1, .H)
  else if d = "UP" then (-1, 0, .V)
  else if d = "DOWN" then (1, 0, .V)
  else (0, 0, .H)

/-- The `for _ in range(grid.size * grid.size)` search loop of `_on_arrow`,
with the remaining iteration count as fuel. -/
def arrowLoop (state : GameState) (grid : GridSpec) (dr dc : Int)
    (orientation : Orientation) (dirLabel : String) : Nat → Cell → GameState
  | 0, _ => { state with last_action := "arrow:failed" }
  | fuel + 1, pos =>
    let cell : Cell := (pos.1 + dr, pos.2 + dc)
    if cell.1 < 0 ∨ cell.2 < 0 ∨ cell.1 ≥ (grid.size : Int) ∨ cell.2 ≥ (grid.size : Int) then
      { state with orientation := orientation,
                   active_slot := _resolve_active_slot grid state.active_cell orientation false,
                   last_action := "arrow:edge" }
    else if is_playable grid cell then
      { state with active_cell := cell, orientation := orientation,
                   active_slot := _resolve_active_slot grid cell orientation false,
                   last_action := "arrow:" ++ dirLabel }
    else arrowLoop state grid dr dc orientation dirLabel fuel cell

/-- Mirror of `engine._on_arrow`. -/
def _on_arrow (state : GameState) (payload : Payload) (grid : GridSpec) : GameState :=
  let d := pyUpper (payload.dir.getD "")
  let s := _step_dir d
  if s.1 = 0 ∧ s.2.1 = 0 then { state with last_action := "arrow:ignored" }
  else arrowLoop state grid s.1 s.2.1 s.2.2 (pyLower d) (grid.size * grid.size) state.active_cell

/-- Mirror of `engine._on_tab`. The `cells[0]` access assumes the slot list
non-empty, as every slot list of the fixed geometry is. -/
def _on_tab (state : GameState) (grid : GridSpec) (forward : Bool) : GameState :=
  let idx := if SLOT_ORDER.contains state.active_slot
             then pyIndex SLOT_ORDER state.active_slot else 0
  let nxt := (((idx : Int) + (if forward = true then 1 else -1)) % (SLOT_ORDER.length : Int)).toNat
  let slot := SLOT_ORDER.getD nxt .h1
  let cells := grid.slots slot
  let orientation :=
    if slot = .h1 ∨ slot = .h2 then Orientation.H
    else if slot = .v1 ∨ slot = .v2 then Orientation.V
    else state.orientation
  { state with active_slot := slot, active_cell := cells.headD state.active_cell,
               orientation := orientation, last_action := "tab" }

/-- Mirror of `engine._on_toggle_orientation`. -/
def _on_toggle_orientation (state : GameState) (grid : GridSpec) : GameState :=
  let slots := grid.cell_to_slots state.active_cell
  let has_h := slots.any fun s => s == .h1 || s == .h2
  let has_v := slots.any fun s => s == .v1 || s == .v2
  if (has_h && has_v) = false then { state with last_action := "toggle:ignored" }
  else
    let new_orientation := if state.orientation = .H then Orientation.V else Orientation.H
    let new_slot := _resolve_active_slot grid state.active_cell new_orientation false
    { state with orientation := new_orientation, active_slot := new_slot,
                 last_action := "toggle" }

/-- Mirror of `engine.check_word`. -/
def check_word (state : GameState) (grid : GridSpec) (truth : TruthMap) : GameState :=
  let new_marks := (grid.slots state.active_slot).foldl
    (fun marks cell =>
      match dGet truth.truth cell with
      | Option.none => marks
      | some expected =>
        let val := (dGet state.grid_letters cell).getD ""
        if val = "" then dSet marks cell .bad
        else dSet marks cell (if val = expected then .ok else .bad))
    state.check_marks
  { state with check_marks := new_marks, last_action := "check_word" }

/-- Mirror of `engine.check_puzzle`. -/
def check_puzzle (state : GameState) (grid : GridSpec) (truth : TruthMap) : GameState :=
  let new_marks := truth.truth.foldl
    (fun marks p =>
      let val := (dGet state.grid_letters p.1).getD ""
      if val = "" then dSet marks p.1 .bad
      else dSet marks p.1 (if val = p.2 then .ok else .bad))
    state.check_marks
  { state with check_marks := new_marks, last_action := "check_puzzle" }

/-- Mirror of `engine.reduce`. -/
def reduce (state : GameState) (event : GridEvent) (grid : GridSpec) (truth : TruthMap) :
    GameState :=
  let t := event.type
  let out :=
    if t = "CLICK_CELL" then _on_click_cell state event.payload grid
    else if t = "TYPE_CHAR" then _on_type_char state event.payload grid
    else if t = "BACKSPACE" then _on_backspace state grid
    else if t = "ARROW" then _on_arrow state event.payload grid
    else if t = "TAB" then _on_tab state grid true
    else if t = "SHIFT_TAB" then _on_tab state grid false
    else if t = "TOGGLE_ORIENTATION" then _on_toggle_orientation state grid
    else if t = "REQUEST_CHECK_WORD" then check_word state grid truth
    else if t = "REQUEST_CHECK_PUZZLE" then check_puzzle state grid truth
    else { state with last_action := "ignored:" ++ t }
  match event.payload.client_seq with
  | some n => if n > out.last_client_seq then { out with last_client_seq := n } else out
  | Option.none => out

/-- Fold of the reducer over a finite event sequence. -/
def applyEvents (grid : GridSpec) (truth : TruthMap) (state : GameState)
    (events : List GridEvent) : GameState :=
  events.foldl (fun s e => reduce s e grid truth) state

/-- One pass of the `meta.givens` loop body in `init_state`: parse the cell id
(skipping on failure), skip cells that are not letter-map keys, accept only a
single letter A-Z after upper/strip, and otherwise seed the letter and record
the cell as given. -/
def applyGiven (acc : List (Cell × String) × List Cell) (item : String × String) :
    List (Cell × String) × List Cell :=
  match parse_cell_id item.1 with
  | Option.none => acc
  | some cell =>
    if dMem acc.1 cell = false then acc
    else
      let letter := pyStrip (pyUpper item.2)
      match letter.data with
      | [c] =>
        if 'A' ≤ c ∧ c ≤ 'Z' then (dSet acc.1 cell letter, acc.2 ++ [cell]) else acc
      | _ => acc

/-- The empty letter map built by the init loop: one "" entry per playable
cell, in row-major order. -/
def initLetters (grid : GridSpec) : List (Cell × String) :=
  ((List.range grid.size).map fun r =>
    (List.range grid.size).filterMap fun c =>
      if (grid.playable_mask.getD r []).getD c false
      then some ((((r : Int), (c : Int)) : Cell), "") else Option.none).flatten

/-- Mirror of `engine.init_state`. The fresh `uuid4` state id is supplied by
the caller as `sid`; `none` models the `RuntimeError` raised when the grid
has no playable cell. -/
def init_state (puzzle : Puzzle) (grid : GridSpec) (sid : String) : Option GameState :=
  let seeded := (puzzle.meta_givens.getD []).foldl applyGiven (initLetters grid, [])
  match first_playable_cell grid with
  | Option.none => Option.none
  | some start =>
    some {
      puzzle_id := puzzle.meta_id.getD puzzle.filename
      state_id := sid
      grid_letters := seeded.1
      given_cells := seeded.2
      active_cell := start
      active_slot := _resolve_active_slot grid start Orientation.H false
      orientation := Orientation.H
      check_marks := seeded.1.map fun p => (p.1, CheckState.none)
      last_action := "init"
      last_client_seq := 0 }

/-- Dispatch part of `reduce` (the `if/elif` chain on the event type),
factored out for proofs; `reduce` is definitionally this followed by the
client-sequence merge. -/
def dispatchEvent (state : GameState) (event : GridEvent) (grid : GridSpec)
    (truth : TruthMap) : GameState :=
  let t := event.type
  if t = "CLICK_CELL" then _on_click_cell state event.payload grid
  else if t = "TYPE_CHAR" then _on_type_char state event.payload grid
  else if t = "BACKSPACE" then _on_backspace state grid
  else if t = "ARROW" then _on_arrow state event.payload grid
  else if t = "TAB" then _on_tab state grid true
  else if t = "SHIFT_TAB" then _on_tab state grid false
  else if t = "TOGGLE_ORIENTATION" then _on_toggle_orientation state grid
  else if t = "REQUEST_CHECK_WORD" then check_word state grid truth
  else if t = "REQUEST_CHECK_PUZZLE" then check_puzzle state grid truth
  else { state with last_action := "ignored:" ++ t }

/-- Client-sequence merge part of `reduce`, factored out for proofs. -/
def mergeClientSeq (out : GameState) (cs : Option Int) : GameState :=
  match cs with
  | some n => if n > out.last_client_seq then { out with last_client_seq := n } else out
  | Option.none => out

theorem reduce_eq_merge_dispatch (s : GameState) (e : GridEvent) (g : GridSpec)
    (t : TruthMap) :
    reduce s e g t = mergeClientSeq (dispatchEvent s e g t) e.payload.client_seq := rfl

theorem dGet_dSet {κ α : Type} [DecidableEq κ] (d : List (κ × α)) (k k2 : κ) (v : α) :
    dGet (dSet d k v) k2 = if k = k2 then some v else dGet d k2 := by
  induction d with
  | nil =>
    by_cases h : k = k2 <;> simp [dSet, dGet, h]
  | cons p rest ih =>
    obtain ⟨k1, v1⟩ := p
    by_cases h1 : k1 = k
    · subst h1
      by_cases h2 : k1 = k2 <;> simp [dSet, dGet, h2]
    · by_cases h2 : k1 = k2
      · subst h2
        have hk : k ≠ k1 := fun h => h1 h.symm
        simp [dSet, dGet, h1, hk]
      · simp [dSet, dGet, h1, h2, ih]

theorem dGet_map_const {κ α β : Type} [DecidableEq κ] (d : List (κ × α)) (b : β)
    (k : κ) :
    dGet (d.map fun p => (p.1, b)) k = (dGet d k).map fun _ => b := by
  induction d with
  | nil => simp [dGet]
  | cons p rest ih =>
    by_cases h : p.1 = k <;> simp [dGet, h, ih]

theorem pyIndex_lt_length {α : Type} [DecidableEq α] (l : List α) (a : α) :
    a ∈ l → pyIndex l a < l.length := by
  induction l with
  | nil => intro h; cases h
  | cons x rest ih =>
    intro h
    by_cases hx : x = a
    · simp [pyIndex, hx]
    · rw [List.mem_cons] at h
      rcases h with h | h
      · exact absurd h.symm hx
      · simpa [pyIndex, hx] using ih h

theorem getD_pyIndex {α : Type} [DecidableEq α] (l : List α) (a d : α) :
    a ∈ l → l.getD (pyIndex l a) d = a := by
  induction l with
  | nil => intro h; cases h
  | cons x rest ih =>
    intro h
    by_cases hx : x = a
    · simp [pyIndex, hx]
    · rw [List.mem_cons] at h
      rcases h with h | h
      · exact absurd h.symm hx
      · simpa [pyIndex, hx] using ih h

theorem seq_click_cell (s : GameState) (p : Payload) (g : GridSpec) :
    (_on_click_cell s p g).last_client_seq = s.last_client_seq := by
  unfold _on_click_cell
  split
  · rfl
  · split <;> rfl

theorem seq_type_char (s : GameState) (p : Payload) (g : GridSpec) :
    (_on_type_char s p g).last_client_seq = s.last_client_seq := by
  simp only [_on_type_char]
  repeat' split
  all_goals rfl

theorem seq_backspace (s : GameState) (g : GridSpec) :
    (_on_backspace s g).last_client_seq = s.last_client_seq := by
  simp only [_on_backspace]
  repeat' split
  all_goals rfl

theorem seq_arrowLoop (s : GameState) (g : GridSpec) (dr dc : Int) (o : Orientation)
    (lbl : String) (fuel : Nat) (pos : Cell) :
    (arrowLoop s g dr dc o lbl fuel pos).last_client_seq = s.last_client_seq := by
  induction fuel generalizing pos with
  | zero => rfl
  | succ n ih =>
    simp only [arrowLoop]
    repeat' split
    · rfl
    · rfl
    · exact ih _

theorem seq_arrow (s : GameState) (p : Payload) (g : GridSpec) :
    (_on_arrow s p g).last_client_seq = s.last_client_seq := by
  simp only [_on_arrow]
  split
  · rfl
  · exact seq_arrowLoop ..

theorem seq_tab (s : GameState) (g : GridSpec) (forward : Bool) :
    (_on_tab s g forward).last_client_seq = s.last_client_seq := rfl

theorem seq_toggle (s : GameState) (g : GridSpec) :
    (_on_toggle_orientation s g).last_client_seq = s.last_client_seq := by
  simp only [_on_toggle_orientation]
  repeat' split
  all_goals rfl

theorem seq_check_word (s : GameState) (g : GridSpec) (t : TruthMap) :
    (check_word s g t).last_client_seq = s.last_client_seq := rfl

theorem seq_check_puzzle (s : GameState) (g : GridSpec) (t : TruthMap) :
    (check_puzzle s g t).last_client_seq = s.last_client_seq := rfl

theorem seq_dispatch (s : GameState) (e : GridEvent) (g : GridSpec) (t : TruthMap) :
    (dispatchEvent s e g t).last_client_seq = s.last_client_seq := by
  simp only [dispatchEvent]
  repeat' split
  all_goals first
    | exact seq_click_cell s e.payload g
    | exact seq_type_char s e.payload g
    | exact seq_backspace s g
    | exact seq_arrow s e.payload g
    | exact seq_tab s g true
    | exact seq_tab s g false
    | exact seq_toggle s g
    | exact seq_check_word s g t
    | exact seq_check_puzzle s g t
    | rfl

/-- Closed form of the output sequence counter of one reduction. -/
theorem reduce_seq_eq (s : GameState) (e : GridEvent) (g : GridSpec) (t : TruthMap) :
    (reduce s e g t).last_client_seq =
      (match e.payload.client_seq with
       | some n => max s.last_client_seq n
       | Option.none => s.last_client_seq) := by
  rw [reduce_eq_merge_dispatch]
  have hd := seq_dispatch s e g t
  unfold mergeClientSeq
  cases e.payload.client_seq with
  | none => exact hd
  | some n =>
    dsimp only
    by_cases hgt : n > (dispatchEvent s e g t).last_client_seq
    · rw [if_pos hgt]
      rw [hd] at hgt
      show n = max s.last_client_seq n
      omega
    · rw [if_neg hgt]
      rw [hd] at hgt
      rw [hd]
      omega

theorem reduce_seq_le (g : GridSpec) (t : TruthMap) (s : GameState) (e : GridEvent) :
    s.last_client_seq ≤ (reduce s e g t).last_client_seq := by
  rw [reduce_seq_eq]
  cases e.payload.client_seq with
  | none => exact le_refl _
  | some n => exact le_max_left _ _

theorem applyEvents_seq_mono (g : GridSpec) (t : TruthMap) (events : List GridEvent)
    (s : GameState) :
    s.last_client_seq ≤ (applyEvents g t s events).last_client_seq := by
  induction events generalizing s with
  | nil => exact le_refl _
  | cons e rest ih =>
    exact le_trans (reduce_seq_le g t s e) (ih (reduce s e g t))

/-- An empty truth map for concrete instantiations. -/
def emptyTruth : TruthMap := ⟨[]⟩

/-- A small concrete state on the fixed geometry used by witnesses: two cells
of the first across slot, the first of which is a given. -/
def tinyState : GameState :=
  { puzzle_id := "p"
    state_id := "s"
    grid_letters := [(((1 : Int), (1 : Int)), "A"), (((1 : Int), (2 : Int)), "")]
    given_cells := [((1 : Int), (1 : Int))]
    active_cell := ((1 : Int), (2 : Int))
    active_slot := .h1
    orientation := .H
    check_marks := [(((1 : Int), (1 : Int)), CheckState.none),
                    (((1 : Int), (2 : Int)), CheckState.ok)]
    last_action := ""
    last_client_seq := 3 }

/-- C5: for every state, the sequence counter of any single reduction is the
maximum of the input counter and the event's client_seq when that is present
and numeric, and the input counter otherwise; consequently the counter is
non-decreasing across any event sequence. -/
theorem C5_client_seq_merge_and_monotone (g : GridSpec) (t : TruthMap) (s : GameState) :
    (∀ e : GridEvent,
       (reduce s e g t).last_client_seq =
         (match e.payload.client_seq with
          | some n => max s.last_client_seq n
          | Option.none => s.last_client_seq)) ∧
    (∀ events : List GridEvent,
       s.last_client_seq ≤ (applyEvents g t s events).last_client_seq) :=
  ⟨fun e => reduce_seq_eq s e g t, fun events => applyEvents_seq_mono g t events s⟩

/-- The nine recognized event type identifiers. -/
def RECOGNIZED_EVENTS : List String :=
  ["CLICK_CELL", "TYPE_CHAR", "BACKSPACE", "ARROW", "TAB", "SHIFT_TAB",
   "TOGGLE_ORIENTATION", "REQUEST_CHECK_WORD", "REQUEST_CHECK_PUZZLE"]

/-- Whether a string is a single letter A-Z (the TYPE_CHAR guard applied to an
already-uppercased string). -/
def is_letter_string (s : String) : Bool :=
  match s.data with
  | [c] => decide ('A' ≤ c ∧ c ≤ 'Z')
  | _ => false

/-- A malformed event in the sense of C1: unrecognized type, a CLICK_CELL
whose cell id does not parse, a TYPE_CHAR whose char is not a single letter
after uppercasing, or an ARROW whose dir is unknown after uppercasing. -/
def malformedEvent (e : GridEvent) : Prop :=
  e.type ∉ RECOGNIZED_EVENTS
  ∨ (e.type = "CLICK_CELL" ∧ parse_cell_id (e.payload.cell_id.getD "") = Option.none)
  ∨ (e.type = "TYPE_CHAR" ∧ is_letter_string (pyUpper (e.payload.char.getD "")) = false)
  ∨ (e.type = "ARROW" ∧
      pyUpper (e.payload.dir.getD "") ∉ (["LEFT", "RIGHT", "UP", "DOWN"] : List String))

/-- The diagnostic tag the reducer actually writes for each malformed case. -/
def ignoreTag (e : GridEvent) : String :=
  if e.type = "CLICK_CELL" then "click:bad_cell_id"
  else if e.type = "TYPE_CHAR" then "type:ignored"
  else if e.type = "ARROW" then "arrow:ignored"
  else "ignored:" ++ e.type

instance (e : GridEvent) : Decidable (malformedEvent e) := by
  unfold malformedEvent
  infer_instance

/-- C1 (counterexample): a CLICK_CELL with an unparseable cell id degrades to a
no-op whose tag is "click:bad_cell_id", which is not of the form
"ignored:(reason)" as the claim states. -/
theorem C1_counterexample :
    (reduce tinyState { type := "CLICK_CELL", payload := { cell_id := some "x" } }
        build_grid_spec emptyTruth).last_action = "click:bad_cell_id" ∧
    ¬ ∃ reason : String,
        (reduce tinyState { type := "CLICK_CELL", payload := { cell_id := some "x" } }
            build_grid_spec emptyTruth).last_action = "ignored:" ++ reason := by
  refine ⟨by decide, ?_⟩
  rintro ⟨r, hr⟩
  have ha : (reduce tinyState { type := "CLICK_CELL", payload := { cell_id := some "x" } }
      build_grid_spec emptyTruth).last_action = "click:bad_cell_id" := by decide
  rw [ha] at hr
  have h2 : ("ignored:" ++ r).data.head? = some 'i' := rfl
  rw [← hr] at h2
  exact absurd h2 (by decide)

/-- C1 (amended): the reducer never fails on a malformed or unrecognized
event; it returns the input state unchanged except that `last_action` is set
to the reducer's diagnostic tag for that case ("ignored:(type)" for an
unrecognized type, "click:bad_cell_id", "type:ignored" or "arrow:ignored"
for the malformed payloads) and `last_client_seq` is merged per the
monotonic rule. -/
theorem C1_malformed_event_noop (s : GameState) (e : GridEvent) (g : GridSpec)
    (t : TruthMap) (h : malformedEvent e) :
    reduce s e g t =
      { s with last_action := ignoreTag e,
               last_client_seq :=
                 match e.payload.client_seq with
                 | some n => max s.last_client_seq n
                 | Option.none => s.last_client_seq } := by
  have hdisp : dispatchEvent s e g t = { s with last_action := ignoreTag e } := by
    rcases h with h | h | h | h
    · simp only [RECOGNIZED_EVENTS, List.mem_cons, List.mem_singleton, not_or,
        List.not_mem_nil, or_false] at h
      obtain ⟨h1, h2, h3, h4, h5, h6, h7, h8, h9⟩ := h
      simp [dispatchEvent, ignoreTag, h1, h2, h3, h4, h5, h6, h7, h8, h9]
    · simp [dispatchEvent, ignoreTag, _on_click_cell, h.1, h.2]
    · have hm : ∀ x, (pyUpper (e.payload.char.getD "")).data = x →
          (match x with
           | [c] => decide ('A' ≤ c ∧ c ≤ 'Z')
           | _ => false) = false := by
        intro x hx
        rw [← hx]
        have := h.2
        rw [is_letter_string] at this
        exact this
      simp only [dispatchEvent, ignoreTag, h.1, reduceIte]
      rw [_on_type_char]
      have hne : ("TYPE_CHAR" : String) ≠ "CLICK_CELL" := by decide
      simp only [hne, reduceIte, if_true, if_false]
      split
      · next c heq =>
        have := hm [c] heq
        simp only [decide_eq_false_iff_not] at this
        rw [if_neg this]
      · rfl
    · have hstep : _step_dir (pyUpper (e.payload.dir.getD "")) = (0, 0, .H) := by
        have h4 := h.2
        simp only [List.mem_cons, List.mem_singleton, not_or, List.not_mem_nil,
          or_false] at h4
        obtain ⟨n1, n2, n3, n4⟩ := h4
        simp [_step_dir, n1, n2, n3, n4]
      simp [dispatchEvent, ignoreTag, _on_arrow, h.1, hstep]
  rw [reduce_eq_merge_dispatch, hdisp]
  unfold mergeClientSeq
  cases e.payload.client_seq with
  | none => rfl
  | some n =>
    dsimp only
    by_cases hgt : n > s.last_client_seq
    · rw [if_pos hgt]
      have hmax : max s.last_client_seq n = n := by omega
      rw [hmax]
    · rw [if_neg hgt]
      have hmax : max s.last_client_seq n = s.last_client_seq := by omega
      rw [hmax]

/-- C1 (witness): the amended theorem applied to a concrete unrecognized event
carrying a client sequence number. -/
theorem C1_malformed_event_noop_witness :
    reduce tinyState { type := "FROB", payload := { client_seq := some 7 } }
        build_grid_spec emptyTruth =
      { tinyState with last_action := "ignored:FROB", last_client_seq := 7 } := by
  have h := C1_malformed_event_noop tinyState
    { type := "FROB", payload := { client_seq := some 7 } } build_grid_spec emptyTruth
    (by decide)
  simpa using h

theorem mergeClientSeq_grid_letters (out : GameState) (cs : Option Int) :
    (mergeClientSeq out cs).grid_letters = out.grid_letters := by
  unfold mergeClientSeq
  cases cs with
  | none => rfl
  | some n => dsimp only; split <;> rfl

theorem mergeClientSeq_given_cells (out : GameState) (cs : Option Int) :
    (mergeClientSeq out cs).given_cells = out.given_cells := by
  unfold mergeClientSeq
  cases cs with
  | none => rfl
  | some n => dsimp only; split <;> rfl

theorem type_char_preserves_given (s : GameState) (p : Payload) (g : GridSpec) :
    (_on_type_char s p g).given_cells = s.given_cells ∧
    ∀ cell : Cell, s.given_cells.contains cell = true →
      dGet (_on_type_char s p g).grid_letters cell = dGet s.grid_letters cell := by
  constructor
  · simp only [_on_type_char]
    repeat' split
    all_goals rfl
  · intro cell hcell
    simp only [_on_type_char]
    split
    · split
      · split
        · rfl
        · next hng =>
          show dGet (dSet s.grid_letters s.active_cell _) cell = dGet s.grid_letters cell
          rw [dGet_dSet, if_neg]
          intro hac
          rw [hac] at hng
          exact hng hcell
      · rfl
    · rfl

theorem backspace_preserves_given (s : GameState) (g : GridSpec) :
    (_on_backspace s g).given_cells = s.given_cells ∧
    ∀ cell : Cell, s.given_cells.contains cell = true →
      dGet (_on_backspace s g).grid_letters cell = dGet s.grid_letters cell := by
  constructor
  · simp only [_on_backspace]
    repeat' split
    all_goals rfl
  · intro cell hcell
    simp only [_on_backspace]
    split
    · rfl
    · next hng =>
      split
      · show dGet (dSet s.grid_letters s.active_cell "") cell = dGet s.grid_letters cell
        rw [dGet_dSet, if_neg]
        intro hac
        rw [hac] at hng
        exact hng hcell
      · split
        · rfl
        · split
          · rfl
          · next hpg =>
            show dGet (dSet s.grid_letters _ "") cell = dGet s.grid_letters cell
            rw [dGet_dSet, if_neg]
            intro hac
            rw [hac] at hpg
            exact hpg hcell

theorem reduce_edit_preserves_given (s : GameState) (e : GridEvent) (g : GridSpec)
    (t : TruthMap) (h : e.type = "TYPE_CHAR" ∨ e.type = "BACKSPACE") :
    (reduce s e g t).given_cells = s.given_cells ∧
    ∀ cell : Cell, s.given_cells.contains cell = true →
      dGet (reduce s e g t).grid_letters cell = dGet s.grid_letters cell := by
  rw [reduce_eq_merge_dispatch]
  rcases h with h | h
  · have hd : dispatchEvent s e g t = _on_type_char s e.payload g := by
      simp [dispatchEvent, h]
    rw [hd, mergeClientSeq_given_cells, mergeClientSeq_grid_letters]
    exact type_char_preserves_given s e.payload g
  · have hd : dispatchEvent s e g t = _on_backspace s g := by
      simp [dispatchEvent, h]
    rw [hd, mergeClientSeq_given_cells, mergeClientSeq_grid_letters]
    exact backspace_preserves_given s g

/-- C2: no finite sequence of TYPE_CHAR and BACKSPACE events ever changes the
letter stored at a given cell; the set of given cells itself is also
preserved. -/
theorem C2_given_letters_immutable (g : GridSpec) (t : TruthMap) (s : GameState)
    (events : List GridEvent)
    (h : ∀ e ∈ events, e.type = "TYPE_CHAR" ∨ e.type = "BACKSPACE")
    (cell : Cell) (hc : cell ∈ s.given_cells) :
    dGet (applyEvents g t s events).grid_letters cell = dGet s.grid_letters cell := by
  induction events generalizing s with
  | nil => rfl
  | cons e rest ih =>
    have he := h e (List.mem_cons_self e rest)
    have hstep := reduce_edit_preserves_given s e g t he
    have hcontains : s.given_cells.contains cell = true :=
      List.elem_eq_true_of_mem hc
    have hc2 : cell ∈ (reduce s e g t).given_cells := by
      rw [hstep.1]; exact hc
    have hrest : ∀ e2 ∈ rest, e2.type = "TYPE_CHAR" ∨ e2.type = "BACKSPACE" :=
      fun e2 he2 => h e2 (List.mem_cons_of_mem e he2)
    calc dGet (applyEvents g t s (e :: rest)).grid_letters cell
        = dGet (applyEvents g t (reduce s e g t) rest).grid_letters cell := rfl
      _ = dGet (reduce s e g t).grid_letters cell := ih (reduce s e g t) hrest hc2
      _ = dGet s.grid_letters cell := hstep.2 cell hcontains

/-- C2 (witness): typing and backspacing over the tiny fixture never touches
the letter of the given cell (1,1). -/
theorem C2_given_letters_immutable_witness :
    dGet (applyEvents build_grid_spec emptyTruth tinyState
        [{ type := "TYPE_CHAR", payload := { char := some "B" } },
         { type := "BACKSPACE" }]).grid_letters ((1 : Int), (1 : Int)) =
      dGet tinyState.grid_letters ((1 : Int), (1 : Int)) := by
  exact C2_given_letters_immutable build_grid_spec emptyTruth tinyState _
    (by decide) ((1 : Int), (1 : Int)) (by decide)

theorem mergeClientSeq_eq_update (out : GameState) (cs : Option Int) :
    mergeClientSeq out cs =
      { out with last_client_seq :=
          match cs with
          | some n => max out.last_client_seq n
          | Option.none => out.last_client_seq } := by
  unfold mergeClientSeq
  cases cs with
  | none => rfl
  | some n =>
    dsimp only
    by_cases hgt : n > out.last_client_seq
    · rw [if_pos hgt]
      have hmax : max out.last_client_seq n = n := by omega
      rw [hmax]
    · rw [if_neg hgt]
      have hmax : max out.last_client_seq n = out.last_client_seq := by omega
      rw [hmax]

theorem is_letter_string_spec (str : String) (h : is_letter_string str = true) :
    ∃ c : Char, str.data = [c] ∧ 'A' ≤ c ∧ c ≤ 'Z' := by
  unfold is_letter_string at h
  rcases hdata : str.data with - | ⟨c, - | ⟨c2, rest⟩⟩
  · rw [hdata] at h
    cases h
  · rw [hdata] at h
    dsimp only at h
    exact ⟨c, rfl, of_decide_eq_true h⟩
  · rw [hdata] at h
    cases h

theorem type_char_on_given (s : GameState) (p : Payload) (g : GridSpec) (c : Char)
    (hdata : (pyUpper (p.char.getD "")).data = [c]) (hAZ : 'A' ≤ c ∧ c ≤ 'Z')
    (hg : s.given_cells.contains s.active_cell = true) :
    _on_type_char s p g = { s with last_action := "type:on_given_ignored" } := by
  simp only [_on_type_char]
  rw [hdata]
  dsimp only
  rw [if_pos hAZ, if_pos hg]

theorem type_char_write (s : GameState) (p : Payload) (g : GridSpec) (c : Char)
    (hdata : (pyUpper (p.char.getD "")).data = [c]) (hAZ : 'A' ≤ c ∧ c ≤ 'Z')
    (hng : s.given_cells.contains s.active_cell = false) :
    _on_type_char s p g =
      { s with grid_letters := dSet s.grid_letters s.active_cell (pyUpper (p.char.getD "")),
               check_marks := s.check_marks.map fun q => (q.1, CheckState.none),
               active_cell := _advance_within_slot g s.active_slot s.active_cell 1,
               last_action := "type" } := by
  simp only [_on_type_char]
  rw [hdata]
  dsimp only
  rw [if_pos hAZ, if_neg (show ¬s.given_cells.contains s.active_cell = true by rw [hng]; decide)]
  rfl

theorem advance_one_eq (g : GridSpec) (slot : SlotId) (cell : Cell)
    (hmem : cell ∈ g.slots slot) :
    _advance_within_slot g slot cell 1 =
      (if pyIndex (g.slots slot) cell + 1 < (g.slots slot).length
       then (g.slots slot).getD (pyIndex (g.slots slot) cell + 1) cell
       else cell) := by
  have hcont : (g.slots slot).contains cell = true := List.elem_eq_true_of_mem hmem
  simp only [_advance_within_slot, hcont]
  rw [if_neg (by simp)]
  by_cases hlt : pyIndex (g.slots slot) cell + 1 < (g.slots slot).length
  · rw [if_pos hlt, if_neg (by omega)]
    have ht : ((pyIndex (g.slots slot) cell : Int) + 1).toNat =
        pyIndex (g.slots slot) cell + 1 := by omega
    rw [ht]
  · rw [if_neg hlt, if_pos (by omega)]

/-- C3: on a valid TYPE_CHAR, if the active cell is a given cell the state is
unchanged apart from the diagnostic tag (and the sequence counter handled by
the merge rule); otherwise the uppercased letter is written into the active
cell, every check mark in the whole grid becomes "none", and the active cell
advances to the next cell in the active slot's order, staying at the slot's
last cell. -/
theorem C3_type_char_semantics (g : GridSpec) (t : TruthMap) (s : GameState)
    (p : Payload) (hch : is_letter_string (pyUpper (p.char.getD "")) = true)
    (hmem : s.active_cell ∈ g.slots s.active_slot) :
    (s.active_cell ∈ s.given_cells →
       (reduce s { type := "TYPE_CHAR", payload := p } g t).grid_letters = s.grid_letters ∧
       (reduce s { type := "TYPE_CHAR", payload := p } g t).check_marks = s.check_marks ∧
       (reduce s { type := "TYPE_CHAR", payload := p } g t).active_cell = s.active_cell ∧
       (reduce s { type := "TYPE_CHAR", payload := p } g t).active_slot = s.active_slot ∧
       (reduce s { type := "TYPE_CHAR", payload := p } g t).orientation = s.orientation ∧
       (reduce s { type := "TYPE_CHAR", payload := p } g t).given_cells = s.given_cells ∧
       (reduce s { type := "TYPE_CHAR", payload := p } g t).last_action =
         "type:on_given_ignored") ∧
    (s.active_cell ∉ s.given_cells →
       dGet (reduce s { type := "TYPE_CHAR", payload := p } g t).grid_letters s.active_cell =
         some (pyUpper (p.char.getD "")) ∧
       (∀ (k : Cell) (v : CheckState), dGet s.check_marks k = some v →
          dGet (reduce s { type := "TYPE_CHAR", payload := p } g t).check_marks k =
            some CheckState.none) ∧
       (reduce s { type := "TYPE_CHAR", payload := p } g t).active_cell =
         (if pyIndex (g.slots s.active_slot) s.active_cell + 1 < (g.slots s.active_slot).length
          then (g.slots s.active_slot).getD
                 (pyIndex (g.slots s.active_slot) s.active_cell + 1) s.active_cell
          else s.active_cell)) := by
  obtain ⟨c, hdata, hAZ⟩ := is_letter_string_spec _ hch
  have hd : dispatchEvent s { type := "TYPE_CHAR", payload := p } g t =
      _on_type_char s p g := by
    simp [dispatchEvent]
  have hred : reduce s { type := "TYPE_CHAR", payload := p } g t =
      { _on_type_char s p g with last_client_seq :=
          match p.client_seq with
          | some n => max (_on_type_char s p g).last_client_seq n
          | Option.none => (_on_type_char s p g).last_client_seq } := by
    rw [reduce_eq_merge_dispatch, hd, mergeClientSeq_eq_update]
  constructor
  · intro hgiven
    have hg : s.given_cells.contains s.active_cell = true :=
      List.elem_eq_true_of_mem hgiven
    rw [hred, type_char_on_given s p g c hdata hAZ hg]
    exact ⟨rfl, rfl, rfl, rfl, rfl, rfl, rfl⟩
  · intro hnotgiven
    have hng : s.given_cells.contains s.active_cell = false := by
      rw [← Bool.not_eq_true]
      intro hx
      exact hnotgiven (List.mem_of_elem_eq_true hx)
    rw [hred, type_char_write s p g c hdata hAZ hng]
    refine ⟨?_, ?_, ?_⟩
    · show dGet (dSet s.grid_letters s.active_cell (pyUpper (p.char.getD "")))
        s.active_cell = some (pyUpper (p.char.getD ""))
      rw [dGet_dSet, if_pos rfl]
    · intro k v hk
      show dGet (s.check_marks.map fun q => (q.1, CheckState.none)) k =
        some CheckState.none
      rw [dGet_map_const, hk]
      rfl
    · show _advance_within_slot g s.active_slot s.active_cell 1 = _
      exact advance_one_eq g s.active_slot s.active_cell hmem

/-- C3 (witness): typing "b" at the non-given active cell (1,2) of the tiny
fixture writes "B", clears the marks, and advances to (1,3). -/
theorem C3_type_char_semantics_witness :
    ((((1 : Int), (2 : Int)) : Cell) ∈ tinyState.given_cells →
       (reduce tinyState { type := "TYPE_CHAR", payload := { char := some "b" } }
           build_grid_spec emptyTruth).grid_letters = tinyState.grid_letters ∧
       (reduce tinyState { type := "TYPE_CHAR", payload := { char := some "b" } }
           build_grid_spec emptyTruth).check_marks = tinyState.check_marks ∧
       (reduce tinyState { type := "TYPE_CHAR", payload := { char := some "b" } }
           build_grid_spec emptyTruth).active_cell = tinyState.active_cell ∧
       (reduce tinyState { type := "TYPE_CHAR", payload := { char := some "b" } }
           build_grid_spec emptyTruth).active_slot = tinyState.active_slot ∧
       (reduce tinyState { type := "TYPE_CHAR", payload := { char := some "b" } }
           build_grid_spec emptyTruth).orientation = tinyState.orientation ∧
       (reduce tinyState { type := "TYPE_CHAR", payload := { char := some "b" } }
           build_grid_spec emptyTruth).given_cells = tinyState.given_cells ∧
       (reduce tinyState { type := "TYPE_CHAR", payload := { char := some "b" } }
           build_grid_spec emptyTruth).last_action = "type:on_given_ignored") ∧
    ((((1 : Int), (2 : Int)) : Cell) ∉ tinyState.given_cells →
       dGet (reduce tinyState { type := "TYPE_CHAR", payload := { char := some "b" } }
           build_grid_spec emptyTruth).grid_letters ((1 : Int), (2 : Int)) =
         some (pyUpper "b") ∧
       (∀ (k : Cell) (v : CheckState), dGet tinyState.check_marks k = some v →
          dGet (reduce tinyState { type := "TYPE_CHAR", payload := { char := some "b" } }
              build_grid_spec emptyTruth).check_marks k = some CheckState.none) ∧
       (reduce tinyState { type := "TYPE_CHAR", payload := { char := some "b" } }
           build_grid_spec emptyTruth).active_cell =
         (if pyIndex (build_grid_spec.slots tinyState.active_slot) ((1 : Int), (2 : Int)) + 1 <
              (build_grid_spec.slots tinyState.active_slot).length
          then (build_grid_spec.slots tinyState.active_slot).getD
                 (pyIndex (build_grid_spec.slots tinyState.active_slot)
                   ((1 : Int), (2 : Int)) + 1) ((1 : Int), (2 : Int))
          else ((1 : Int), (2 : Int)))) :=
  C3_type_char_semantics build_grid_spec emptyTruth tinyState
    { char := some "b" } (by decide) (by decide)

theorem getD_mem {α : Type} (l : List α) (n : Nat) (d : α) :
    n < l.length → l.getD n d ∈ l := by
  induction l generalizing n with
  | nil => intro h; cases h
  | cons x rest ih =>
    intro h
    cases n with
    | zero => simp [List.getD_cons_zero]
    | succ m =>
      rw [List.getD_cons_succ]
      exact List.mem_cons_of_mem x (ih m (by simpa using h))

theorem pyIndex_getD {α : Type} [DecidableEq α] (l : List α) (d : α) (hnd : l.Nodup)
    (j : Nat) : j < l.length → pyIndex l (l.getD j d) = j := by
  induction l generalizing j with
  | nil => intro h; cases h
  | cons x rest ih =>
    intro h
    cases j with
    | zero => simp [List.getD_cons_zero, pyIndex]
    | succ m =>
      have hm : m < rest.length := by simpa using h
      have hx : x ≠ rest.getD m d := by
        intro hx
        have : x ∈ rest := hx ▸ getD_mem rest m d hm
        exact (List.nodup_cons.mp hnd).1 this
      rw [List.getD_cons_succ]
      simp only [pyIndex, if_neg hx]
      rw [ih (List.nodup_cons.mp hnd).2 m hm]

/-- The cells of the active slot, the index of the active cell in them, and the
previous cell in the slot order, as C4 speaks of them. -/
def slotCells (g : GridSpec) (s : GameState) : List Cell := g.slots s.active_slot

def activeIdx (g : GridSpec) (s : GameState) : Nat :=
  pyIndex (slotCells g s) s.active_cell

def prevCell (g : GridSpec) (s : GameState) : Cell :=
  (slotCells g s).getD (activeIdx g s - 1) s.active_cell

theorem fixedSlots_nodup (sid : SlotId) : (fixedSlots sid).Nodup := by
  cases sid <;> decide

theorem prevCell_ne_active (s : GameState)
    (hmem : s.active_cell ∈ slotCells build_grid_spec s)
    (hidx : activeIdx build_grid_spec s ≠ 0) :
    prevCell build_grid_spec s ≠ s.active_cell := by
  intro heq
  have hnd : (slotCells build_grid_spec s).Nodup := fixedSlots_nodup s.active_slot
  have hlt : activeIdx build_grid_spec s < (slotCells build_grid_spec s).length :=
    pyIndex_lt_length _ _ hmem
  have hp2 : pyIndex (slotCells build_grid_spec s) (prevCell build_grid_spec s) =
      activeIdx build_grid_spec s - 1 :=
    pyIndex_getD (slotCells build_grid_spec s) s.active_cell hnd
      (activeIdx build_grid_spec s - 1) (by omega)
  rw [heq] at hp2
  have : activeIdx build_grid_spec s = activeIdx build_grid_spec s - 1 := hp2
  omega

theorem advance_neg_eq (g : GridSpec) (slot : SlotId) (cell : Cell)
    (hmem : cell ∈ g.slots slot) :
    _advance_within_slot g slot cell (-1) =
      (if pyIndex (g.slots slot) cell = 0 then cell
       else (g.slots slot).getD (pyIndex (g.slots slot) cell - 1) cell) := by
  have hcont : (g.slots slot).contains cell = true := List.elem_eq_true_of_mem hmem
  have hlt : pyIndex (g.slots slot) cell < (g.slots slot).length :=
    pyIndex_lt_length _ _ hmem
  simp only [_advance_within_slot, hcont]
  rw [if_neg (by simp)]
  by_cases h0 : pyIndex (g.slots slot) cell = 0
  · rw [if_pos (by omega), if_pos h0]
  · rw [if_neg (by omega), if_neg h0]
    have ht : ((pyIndex (g.slots slot) cell : Int) + -1).toNat =
        pyIndex (g.slots slot) cell - 1 := by omega
    rw [ht]

theorem backspace_given_contains_false (s : GameState)
    (hng : s.active_cell ∉ s.given_cells) :
    s.given_cells.contains s.active_cell = false := by
  rw [← Bool.not_eq_true]
  intro hx
  exact hng (List.mem_of_elem_eq_true hx)

theorem backspace_clear_eq (s : GameState) (g : GridSpec)
    (hng : s.given_cells.contains s.active_cell = false)
    (hval : (dGet s.grid_letters s.active_cell).getD "" ≠ "") :
    _on_backspace s g =
      { s with grid_letters := dSet s.grid_letters s.active_cell "",
               check_marks := s.check_marks.map fun q => (q.1, CheckState.none),
               last_action := "backspace:clear" } := by
  simp only [_on_backspace]
  rw [if_neg (show ¬s.given_cells.contains s.active_cell = true by rw [hng]; decide)]
  rw [if_pos hval]
  rfl

theorem backspace_at_start_eq (s : GameState) (g : GridSpec)
    (hng : s.given_cells.contains s.active_cell = false)
    (hval : (dGet s.grid_letters s.active_cell).getD "" = "")
    (hprev : _advance_within_slot g s.active_slot s.active_cell (-1) = s.active_cell) :
    _on_backspace s g = { s with last_action := "backspace:at_start" } := by
  simp only [_on_backspace]
  rw [if_neg (show ¬s.given_cells.contains s.active_cell = true by rw [hng]; decide)]
  rw [if_neg (by simp [hval]), if_pos hprev]

theorem backspace_prev_given_eq (s : GameState) (g : GridSpec)
    (hng : s.given_cells.contains s.active_cell = false)
    (hval : (dGet s.grid_letters s.active_cell).getD "" = "")
    (hprev : _advance_within_slot g s.active_slot s.active_cell (-1) ≠ s.active_cell)
    (hpg : s.given_cells.contains
      (_advance_within_slot g s.active_slot s.active_cell (-1)) = true) :
    _on_backspace s g =
      { s with active_cell := _advance_within_slot g s.active_slot s.active_cell (-1),
               last_action := "backspace:prev_is_given" } := by
  simp only [_on_backspace]
  rw [if_neg (show ¬s.given_cells.contains s.active_cell = true by rw [hng]; decide)]
  rw [if_neg (by simp [hval]), if_neg hprev, if_pos hpg]

theorem backspace_move_clear_eq (s : GameState) (g : GridSpec)
    (hng : s.given_cells.contains s.active_cell = false)
    (hval : (dGet s.grid_letters s.active_cell).getD "" = "")
    (hprev : _advance_within_slot g s.active_slot s.active_cell (-1) ≠ s.active_cell)
    (hpg : s.given_cells.contains
      (_advance_within_slot g s.active_slot s.active_cell (-1)) = false) :
    _on_backspace s g =
      { s with grid_letters :=
                 dSet s.grid_letters
                   (_advance_within_slot g s.active_slot s.active_cell (-1)) "",
               check_marks := s.check_marks.map fun q => (q.1, CheckState.none),
               active_cell := _advance_within_slot g s.active_slot s.active_cell (-1),
               last_action := "backspace:move_clear" } := by
  simp only [_on_backspace]
  rw [if_neg (show ¬s.given_cells.contains s.active_cell = true by rw [hng]; decide)]
  rw [if_neg (by simp [hval]), if_neg hprev]
  rw [if_neg (show ¬s.given_cells.contains
    (_advance_within_slot g s.active_slot s.active_cell (-1)) = true by rw [hpg]; decide)]
  rfl

/-- C4: BACKSPACE on a non-given active cell of the fixed geometry: with a
letter present, the letter is cleared, all marks become "none" and focus does
not move; on an empty first cell nothing changes but the tag; on an empty cell
whose predecessor is given, only focus moves; otherwise focus moves back and
the predecessor's letter is cleared along with all marks. -/
theorem C4_backspace_semantics (t : TruthMap) (s : GameState) (p : Payload)
    (hng : s.active_cell ∉ s.given_cells)
    (hmem : s.active_cell ∈ slotCells build_grid_spec s) :
    ((dGet s.grid_letters s.active_cell).getD "" ≠ "" →
       dGet (reduce s { type := "BACKSPACE", payload := p } build_grid_spec t).grid_letters
           s.active_cell = some "" ∧
       (∀ k : Cell, k ≠ s.active_cell →
          dGet (reduce s { type := "BACKSPACE", payload := p } build_grid_spec t).grid_letters
            k = dGet s.grid_letters k) ∧
       (∀ (k : Cell) (v : CheckState), dGet s.check_marks k = some v →
          dGet (reduce s { type := "BACKSPACE", payload := p } build_grid_spec t).check_marks
            k = some CheckState.none) ∧
       (reduce s { type := "BACKSPACE", payload := p } build_grid_spec t).active_cell =
         s.active_cell) ∧
    ((dGet s.grid_letters s.active_cell).getD "" = "" →
       activeIdx build_grid_spec s = 0 →
       (reduce s { type := "BACKSPACE", payload := p } build_grid_spec t).grid_letters =
           s.grid_letters ∧
       (reduce s { type := "BACKSPACE", payload := p } build_grid_spec t).check_marks =
           s.check_marks ∧
       (reduce s { type := "BACKSPACE", payload := p } build_grid_spec t).active_cell =
           s.active_cell ∧
       (reduce s { type := "BACKSPACE", payload := p } build_grid_spec t).last_action =
           "backspace:at_start") ∧
    ((dGet s.grid_letters s.active_cell).getD "" = "" →
       activeIdx build_grid_spec s ≠ 0 →
       prevCell build_grid_spec s ∈ s.given_cells →
       (reduce s { type := "BACKSPACE", payload := p } build_grid_spec t).active_cell =
           prevCell build_grid_spec s ∧
       (reduce s { type := "BACKSPACE", payload := p } build_grid_spec t).grid_letters =
           s.grid_letters ∧
       (reduce s { type := "BACKSPACE", payload := p } build_grid_spec t).check_marks =
           s.check_marks) ∧
    ((dGet s.grid_letters s.active_cell).getD "" = "" →
       activeIdx build_grid_spec s ≠ 0 →
       prevCell build_grid_spec s ∉ s.given_cells →
       (reduce s { type := "BACKSPACE", payload := p } build_grid_spec t).active_cell =
           prevCell build_grid_spec s ∧
       dGet (reduce s { type := "BACKSPACE", payload := p } build_grid_spec t).grid_letters
           (prevCell build_grid_spec s) = some "" ∧
       (∀ k : Cell, k ≠ prevCell build_grid_spec s →
          dGet (reduce s { type := "BACKSPACE", payload := p } build_grid_spec t).grid_letters
            k = dGet s.grid_letters k) ∧
       (∀ (k : Cell) (v : CheckState), dGet s.check_marks k = some v →
          dGet (reduce s { type := "BACKSPACE", payload := p } build_grid_spec t).check_marks
            k = some CheckState.none)) := by
  have hngb : s.given_cells.contains s.active_cell = false :=
    backspace_given_contains_false s hng
  have hd : dispatchEvent s { type := "BACKSPACE", payload := p } build_grid_spec t =
      _on_backspace s build_grid_spec := by
    simp [dispatchEvent]
  have hred : reduce s { type := "BACKSPACE", payload := p } build_grid_spec t =
      { _on_backspace s build_grid_spec with last_client_seq :=
          match p.client_seq with
          | some n => max (_on_backspace s build_grid_spec).last_client_seq n
          | Option.none => (_on_backspace s build_grid_spec).last_client_seq } := by
    rw [reduce_eq_merge_dispatch, hd, mergeClientSeq_eq_update]
  refine ⟨?_, ?_, ?_, ?_⟩
  · intro hval
    rw [hred, backspace_clear_eq s build_grid_spec hngb hval]
    refine ⟨?_, ?_, ?_, rfl⟩
    · show dGet (dSet s.grid_letters s.active_cell "") s.active_cell = some ""
      rw [dGet_dSet, if_pos rfl]
    · intro k hk
      show dGet (dSet s.grid_letters s.active_cell "") k = dGet s.grid_letters k
      rw [dGet_dSet, if_neg (fun h => hk h.symm)]
    · intro k v hk
      show dGet (s.check_marks.map fun q => (q.1, CheckState.none)) k =
        some CheckState.none
      rw [dGet_map_const, hk]
      rfl
  · intro hval hidx0
    have hprev : _advance_within_slot build_grid_spec s.active_slot s.active_cell (-1) =
        s.active_cell := by
      rw [advance_neg_eq build_grid_spec s.active_slot s.active_cell hmem]
      exact if_pos hidx0
    rw [hred, backspace_at_start_eq s build_grid_spec hngb hval hprev]
    exact ⟨rfl, rfl, rfl, rfl⟩
  · intro hval hidx hpgiven
    have hprev_eq : _advance_within_slot build_grid_spec s.active_slot s.active_cell (-1) =
        prevCell build_grid_spec s := by
      rw [advance_neg_eq build_grid_spec s.active_slot s.active_cell hmem]
      exact if_neg hidx
    have hprev_ne : _advance_within_slot build_grid_spec s.active_slot s.active_cell (-1) ≠
        s.active_cell := by
      rw [hprev_eq]
      exact prevCell_ne_active s hmem hidx
    have hpg : s.given_cells.contains
        (_advance_within_slot build_grid_spec s.active_slot s.active_cell (-1)) = true := by
      rw [hprev_eq]
      exact List.elem_eq_true_of_mem hpgiven
    rw [hred, backspace_prev_given_eq s build_grid_spec hngb hval hprev_ne hpg]
    exact ⟨hprev_eq, rfl, rfl⟩
  · intro hval hidx hpnot
    have hprev_eq : _advance_within_slot build_grid_spec s.active_slot s.active_cell (-1) =
        prevCell build_grid_spec s := by
      rw [advance_neg_eq build_grid_spec s.active_slot s.active_cell hmem]
      exact if_neg hidx
    have hprev_ne : _advance_within_slot build_grid_spec s.active_slot s.active_cell (-1) ≠
        s.active_cell := by
      rw [hprev_eq]
      exact prevCell_ne_active s hmem hidx
    have hpg : s.given_cells.contains
        (_advance_within_slot build_grid_spec s.active_slot s.active_cell (-1)) = false := by
      rw [hprev_eq, ← Bool.not_eq_true]
      intro hx
      exact hpnot (List.mem_of_elem_eq_true hx)
    rw [hred, backspace_move_clear_eq s build_grid_spec hngb hval hprev_ne hpg]
    refine ⟨hprev_eq, ?_, ?_, ?_⟩
    · show dGet (dSet s.grid_letters _ "") (prevCell build_grid_spec s) = some ""
      rw [hprev_eq, dGet_dSet, if_pos rfl]
    · intro k hk
      show dGet (dSet s.grid_letters _ "") k = dGet s.grid_letters k
      rw [hprev_eq, dGet_dSet, if_neg (fun h => hk h.symm)]
    · intro k v hk
      show dGet (s.check_marks.map fun q => (q.1, CheckState.none)) k =
        some CheckState.none
      rw [dGet_map_const, hk]
      rfl

/-- C4 (witness): backspace on the empty active cell (1,2) of the tiny fixture,
whose predecessor (1,1) in slot h1 is a given cell, only moves focus there. -/
theorem C4_backspace_semantics_witness :
    (reduce tinyState { type := "BACKSPACE", payload := {} } build_grid_spec
        emptyTruth).active_cell = prevCell build_grid_spec tinyState ∧
    (reduce tinyState { type := "BACKSPACE", payload := {} } build_grid_spec
        emptyTruth).grid_letters = tinyState.grid_letters ∧
    (reduce tinyState { type := "BACKSPACE", payload := {} } build_grid_spec
        emptyTruth).check_marks = tinyState.check_marks :=
  (C4_backspace_semantics emptyTruth tinyState {} (by decide) (by decide)).2.2.1
    (by decide) (by decide) (by decide)

/-- The new orientation computed by `_on_click_cell`: flipped exactly when the
clicked cell is the active cell and belongs to both an across and a down
slot. -/
def clickOrientation (g : GridSpec) (s : GameState) (cell : Cell) : Orientation :=
  if cell = s.active_cell ∧
      ((g.cell_to_slots cell).any fun x => x == SlotId.h1 || x == SlotId.h2) = true ∧
      ((g.cell_to_slots cell).any fun x => x == SlotId.v1 || x == SlotId.v2) = true then
    (if s.orientation = .H then Orientation.V else Orientation.H)
  else s.orientation

theorem click_cell_eq (s : GameState) (p : Payload) (g : GridSpec) (cell : Cell)
    (hparse : parse_cell_id (p.cell_id.getD "") = some cell)
    (hplay : is_playable g cell = true) :
    _on_click_cell s p g =
      { s with active_cell := cell,
               orientation := clickOrientation g s cell,
               active_slot := _resolve_active_slot g cell (clickOrientation g s cell) false,
               last_action := "click" } := by
  simp only [_on_click_cell]
  rw [hparse]
  dsimp only
  rw [if_neg (show ¬is_playable g cell = false by rw [hplay]; decide)]
  rfl

/-- C6: clicking the active cell flips the orientation when the cell belongs
to both an across and a down slot, twice restores it, re-resolving the active
slot each time; clicking a different playable cell never changes the
orientation. -/
theorem C6_click_toggles_orientation (g : GridSpec) (t : TruthMap) (s : GameState)
    (p : Payload) (cell : Cell)
    (hparse : parse_cell_id (p.cell_id.getD "") = some cell)
    (hplay : is_playable g cell = true) :
    (cell = s.active_cell →
       ((g.cell_to_slots cell).any fun x => x == SlotId.h1 || x == SlotId.h2) = true →
       ((g.cell_to_slots cell).any fun x => x == SlotId.v1 || x == SlotId.v2) = true →
       (reduce s { type := "CLICK_CELL", payload := p } g t).orientation =
         (if s.orientation = .H then Orientation.V else Orientation.H) ∧
       (reduce s { type := "CLICK_CELL", payload := p } g t).active_slot =
         _resolve_active_slot g cell
           (if s.orientation = .H then Orientation.V else Orientation.H) false ∧
       (reduce (reduce s { type := "CLICK_CELL", payload := p } g t)
           { type := "CLICK_CELL", payload := p } g t).orientation = s.orientation ∧
       (reduce (reduce s { type := "CLICK_CELL", payload := p } g t)
           { type := "CLICK_CELL", payload := p } g t).active_slot =
         _resolve_active_slot g cell s.orientation false) ∧
    (cell ≠ s.active_cell →
       (reduce s { type := "CLICK_CELL", payload := p } g t).orientation =
         s.orientation) := by
  have hred : ∀ s2 : GameState,
      reduce s2 { type := "CLICK_CELL", payload := p } g t =
        { _on_click_cell s2 p g with last_client_seq :=
            match p.client_seq with
            | some n => max (_on_click_cell s2 p g).last_client_seq n
            | Option.none => (_on_click_cell s2 p g).last_client_seq } := by
    intro s2
    have hd : dispatchEvent s2 { type := "CLICK_CELL", payload := p } g t =
        _on_click_cell s2 p g := by
      simp [dispatchEvent]
    rw [reduce_eq_merge_dispatch, hd, mergeClientSeq_eq_update]
  constructor
  · intro hcell hh hv
    have horient1 : clickOrientation g s cell =
        (if s.orientation = .H then Orientation.V else Orientation.H) := by
      unfold clickOrientation
      rw [if_pos ⟨hcell, hh, hv⟩]
    have hout1 : (reduce s { type := "CLICK_CELL", payload := p } g t).orientation =
        (if s.orientation = .H then Orientation.V else Orientation.H) := by
      rw [hred s, click_cell_eq s p g cell hparse hplay]
      exact horient1
    have hslot1 : (reduce s { type := "CLICK_CELL", payload := p } g t).active_slot =
        _resolve_active_slot g cell
          (if s.orientation = .H then Orientation.V else Orientation.H) false := by
      rw [hred s, click_cell_eq s p g cell hparse hplay]
      show _resolve_active_slot g cell (clickOrientation g s cell) false = _
      rw [horient1]
    have hcell1 : (reduce s { type := "CLICK_CELL", payload := p } g t).active_cell =
        cell := by
      rw [hred s, click_cell_eq s p g cell hparse hplay]
    have horient2 : clickOrientation g
        (reduce s { type := "CLICK_CELL", payload := p } g t) cell = s.orientation := by
      unfold clickOrientation
      rw [if_pos ⟨hcell1.symm, hh, hv⟩, hout1]
      cases s.orientation <;> rfl
    refine ⟨hout1, hslot1, ?_, ?_⟩
    · rw [hred _, click_cell_eq _ p g cell hparse hplay]
      exact horient2
    · rw [hred _, click_cell_eq _ p g cell hparse hplay]
      show _resolve_active_slot g cell (clickOrientation g _ cell) false = _
      rw [horient2]
  · intro hne
    have horient1 : clickOrientation g s cell = s.orientation := by
      unfold clickOrientation
      rw [if_neg]
      intro hx
      exact hne hx.1
    rw [hred s, click_cell_eq s p g cell hparse hplay]
    exact horient1

/-- A fixture whose active cell (1,1) lies on both an across and a down slot. -/
def crossState : GameState := { tinyState with active_cell := ((1 : Int), (1 : Int)) }

/-- C6 (witness): clicking the active intersection cell (1,1) flips the
orientation from across to down and a second click restores it, re-resolving
the slot each time. -/
theorem C6_click_toggles_orientation_witness :
    (reduce crossState { type := "CLICK_CELL", payload := { cell_id := some "1,1" } }
        build_grid_spec emptyTruth).orientation =
      (if crossState.orientation = .H then Orientation.V else Orientation.H) ∧
    (reduce crossState { type := "CLICK_CELL", payload := { cell_id := some "1,1" } }
        build_grid_spec emptyTruth).active_slot =
      _resolve_active_slot build_grid_spec ((1 : Int), (1 : Int))
        (if crossState.orientation = .H then Orientation.V else Orientation.H) false ∧
    (reduce (reduce crossState
        { type := "CLICK_CELL", payload := { cell_id := some "1,1" } }
        build_grid_spec emptyTruth)
        { type := "CLICK_CELL", payload := { cell_id := some "1,1" } }
        build_grid_spec emptyTruth).orientation = crossState.orientation ∧
    (reduce (reduce crossState
        { type := "CLICK_CELL", payload := { cell_id := some "1,1" } }
        build_grid_spec emptyTruth)
        { type := "CLICK_CELL", payload := { cell_id := some "1,1" } }
        build_grid_spec emptyTruth).active_slot =
      _resolve_active_slot build_grid_spec ((1 : Int), (1 : Int))
        crossState.orientation false :=
  (C6_click_toggles_orientation build_grid_spec emptyTruth crossState
      { cell_id := some "1,1" } ((1 : Int), (1 : Int)) (by decide) (by decide)).1
    (by decide) (by decide) (by decide)

/-- C7: TAB moves the active slot to index (i+1) mod 5 in the fixed ordering
and SHIFT_TAB to (i-1) mod 5, wrapping at both ends; the active cell becomes
the new slot's first cell; entering an across or down slot forces the
orientation, entering the hidden-word slot keeps it. -/
theorem C7_tab_cycle (t : TruthMap) (s : GameState) (p : Payload) :
    ((reduce s { type := "TAB", payload := p } build_grid_spec t).active_slot =
       SLOT_ORDER.getD
         ((((pyIndex SLOT_ORDER s.active_slot : Int) + 1) % 5).toNat) .h1 ∧
     (build_grid_spec.slots
         (reduce s { type := "TAB", payload := p } build_grid_spec t).active_slot).head? =
       some (reduce s { type := "TAB", payload := p } build_grid_spec t).active_cell ∧
     ((reduce s { type := "TAB", payload := p } build_grid_spec t).active_slot = .h1 ∨
      (reduce s { type := "TAB", payload := p } build_grid_spec t).active_slot = .h2 →
        (reduce s { type := "TAB", payload := p } build_grid_spec t).orientation = .H) ∧
     ((reduce s { type := "TAB", payload := p } build_grid_spec t).active_slot = .v1 ∨
      (reduce s { type := "TAB", payload := p } build_grid_spec t).active_slot = .v2 →
        (reduce s { type := "TAB", payload := p } build_grid_spec t).orientation = .V) ∧
     ((reduce s { type := "TAB", payload := p } build_grid_spec t).active_slot = .hw →
        (reduce s { type := "TAB", payload := p } build_grid_spec t).orientation =
          s.orientation)) ∧
    ((reduce s { type := "SHIFT_TAB", payload := p } build_grid_spec t).active_slot =
       SLOT_ORDER.getD
         ((((pyIndex SLOT_ORDER s.active_slot : Int) - 1) % 5).toNat) .h1 ∧
     (build_grid_spec.slots
         (reduce s { type := "SHIFT_TAB", payload := p } build_grid_spec t).active_slot).head? =
       some (reduce s { type := "SHIFT_TAB", payload := p } build_grid_spec t).active_cell ∧
     ((reduce s { type := "SHIFT_TAB", payload := p } build_grid_spec t).active_slot = .h1 ∨
      (reduce s { type := "SHIFT_TAB", payload := p } build_grid_spec t).active_slot = .h2 →
        (reduce s { type := "SHIFT_TAB", payload := p } build_grid_spec t).orientation = .H) ∧
     ((reduce s { type := "SHIFT_TAB", payload := p } build_grid_spec t).active_slot = .v1 ∨
      (reduce s { type := "SHIFT_TAB", payload := p } build_grid_spec t).active_slot = .v2 →
        (reduce s { type := "SHIFT_TAB", payload := p } build_grid_spec t).orientation = .V) ∧
     ((reduce s { type := "SHIFT_TAB", payload := p } build_grid_spec t).active_slot = .hw →
        (reduce s { type := "SHIFT_TAB", payload := p } build_grid_spec t).orientation =
          s.orientation)) := by
  have hredT : reduce s { type := "TAB", payload := p } build_grid_spec t =
      { _on_tab s build_grid_spec true with last_client_seq :=
          match p.client_seq with
          | some n => max (_on_tab s build_grid_spec true).last_client_seq n
          | Option.none => (_on_tab s build_grid_spec true).last_client_seq } := by
    have hd : dispatchEvent s { type := "TAB", payload := p } build_grid_spec t =
        _on_tab s build_grid_spec true := by
      simp [dispatchEvent]
    rw [reduce_eq_merge_dispatch, hd, mergeClientSeq_eq_update]
  have hredS : reduce s { type := "SHIFT_TAB", payload := p } build_grid_spec t =
      { _on_tab s build_grid_spec false with last_client_seq :=
          match p.client_seq with
          | some n => max (_on_tab s build_grid_spec false).last_client_seq n
          | Option.none => (_on_tab s build_grid_spec false).last_client_seq } := by
    have hd : dispatchEvent s { type := "SHIFT_TAB", payload := p } build_grid_spec t =
        _on_tab s build_grid_spec false := by
      simp [dispatchEvent]
    rw [reduce_eq_merge_dispatch, hd, mergeClientSeq_eq_update]
  rw [hredT, hredS]
  obtain ⟨pid, sid, gl, gc, ac, aslot, orient, cm, la, seq⟩ := s
  dsimp only
  cases aslot <;>
    refine ⟨⟨?_, ?_, ?_, ?_, ?_⟩, ⟨?_, ?_, ?_, ?_, ?_⟩⟩ <;>
    simp [_on_tab, SLOT_ORDER, pyIndex, fixedSlots, build_grid_spec,
      List.range_succ, List.range_zero]

/-- Outcome of the directional search of `_on_arrow`: the boundary is crossed
before any playable cell, a playable cell is found, or the fuel runs out
(unreachable from any position on the fixed geometry within size*size
steps). -/
inductive ArrowOutcome where
  | edge
  | found (cell : Cell)
  | exhausted
deriving DecidableEq, Repr

/-- The search performed by the `_on_arrow` loop, reduced to its outcome. -/
def scanDir (g : GridSpec) (dr dc : Int) : Nat → Cell → ArrowOutcome
  | 0, _ => .exhausted
  | fuel + 1, pos =>
    let cell : Cell := (pos.1 + dr, pos.2 + dc)
    if cell.1 < 0 ∨ cell.2 < 0 ∨ cell.1 ≥ (g.size : Int) ∨ cell.2 ≥ (g.size : Int) then
      .edge
    else if is_playable g cell then .found cell
    else scanDir g dr dc fuel cell

theorem arrowLoop_scan (s : GameState) (g : GridSpec) (dr dc : Int) (o : Orientation)
    (lbl : String) (fuel : Nat) (pos : Cell) :
    (scanDir g dr dc fuel pos = .edge →
       arrowLoop s g dr dc o lbl fuel pos =
         { s with orientation := o,
                  active_slot := _resolve_active_slot g s.active_cell o false,
                  last_action := "arrow:edge" }) ∧
    (∀ c : Cell, scanDir g dr dc fuel pos = .found c →
       arrowLoop s g dr dc o lbl fuel pos =
         { s with active_cell := c, orientation := o,
                  active_slot := _resolve_active_slot g c o false,
                  last_action := "arrow:" ++ lbl }) := by
  induction fuel generalizing pos with
  | zero => exact ⟨fun h => (nomatch h), fun c h => (nomatch h)⟩
  | succ n ih =>
    simp only [scanDir, arrowLoop]
    dsimp only
    constructor
    · intro h
      split at h
      · next hcond =>
        rw [if_pos hcond]
      · next hcond =>
        rw [if_neg hcond]
        split at h
        · cases h
        · next hplay =>
          rw [if_neg hplay]
          exact (ih _).1 h
    · intro c h
      split at h
      · cases h
      · next hcond =>
        rw [if_neg hcond]
        split at h
        · next hplay =>
          rw [if_pos hplay]
          cases h
          rfl
        · next hplay =>
          rw [if_neg hplay]
          exact (ih _).2 c h

/-- C8: a valid ARROW event implies an orientation (LEFT/RIGHT across, UP/DOWN
down); when the directional scan crosses the boundary the active cell is
unchanged but orientation is updated and the slot re-resolved at the
unchanged cell, with tag "arrow:edge"; when the scan finds a playable cell
the active cell moves there with the implied orientation and the slot
resolved at the new cell. -/
theorem C8_arrow_semantics (t : TruthMap) (s : GameState) (p : Payload)
    (hdir : pyUpper (p.dir.getD "") ∈ (["LEFT", "RIGHT", "UP", "DOWN"] : List String)) :
    (_step_dir (pyUpper (p.dir.getD ""))).2.2 =
      (if pyUpper (p.dir.getD "") = "LEFT" ∨ pyUpper (p.dir.getD "") = "RIGHT"
       then Orientation.H else Orientation.V) ∧
    (scanDir build_grid_spec (_step_dir (pyUpper (p.dir.getD ""))).1
        (_step_dir (pyUpper (p.dir.getD ""))).2.1 25 s.active_cell = .edge →
       (reduce s { type := "ARROW", payload := p } build_grid_spec t).active_cell =
         s.active_cell ∧
       (reduce s { type := "ARROW", payload := p } build_grid_spec t).orientation =
         (_step_dir (pyUpper (p.dir.getD ""))).2.2 ∧
       (reduce s { type := "ARROW", payload := p } build_grid_spec t).active_slot =
         _resolve_active_slot build_grid_spec s.active_cell
           (_step_dir (pyUpper (p.dir.getD ""))).2.2 false ∧
       (reduce s { type := "ARROW", payload := p } build_grid_spec t).last_action =
         "arrow:edge") ∧
    (∀ c : Cell, scanDir build_grid_spec (_step_dir (pyUpper (p.dir.getD ""))).1
        (_step_dir (pyUpper (p.dir.getD ""))).2.1 25 s.active_cell = .found c →
       (reduce s { type := "ARROW", payload := p } build_grid_spec t).active_cell = c ∧
       (reduce s { type := "ARROW", payload := p } build_grid_spec t).orientation =
         (_step_dir (pyUpper (p.dir.getD ""))).2.2 ∧
       (reduce s { type := "ARROW", payload := p } build_grid_spec t).active_slot =
         _resolve_active_slot build_grid_spec c
           (_step_dir (pyUpper (p.dir.getD ""))).2.2 false) := by
  have hdir4 : pyUpper (p.dir.getD "") = "LEFT" ∨ pyUpper (p.dir.getD "") = "RIGHT" ∨
      pyUpper (p.dir.getD "") = "UP" ∨ pyUpper (p.dir.getD "") = "DOWN" := by
    simpa using hdir
  have hne : ¬((_step_dir (pyUpper (p.dir.getD ""))).1 = 0 ∧
      (_step_dir (pyUpper (p.dir.getD ""))).2.1 = 0) := by
    rcases hdir4 with h | h | h | h <;> rw [h] <;> decide
  have hmap : (_step_dir (pyUpper (p.dir.getD ""))).2.2 =
      (if pyUpper (p.dir.getD "") = "LEFT" ∨ pyUpper (p.dir.getD "") = "RIGHT"
       then Orientation.H else Orientation.V) := by
    rcases hdir4 with h | h | h | h <;> rw [h] <;> decide
  have hd : dispatchEvent s { type := "ARROW", payload := p } build_grid_spec t =
      _on_arrow s p build_grid_spec := by
    simp [dispatchEvent]
  have hred : reduce s { type := "ARROW", payload := p } build_grid_spec t =
      { _on_arrow s p build_grid_spec with last_client_seq :=
          match p.client_seq with
          | some n => max (_on_arrow s p build_grid_spec).last_client_seq n
          | Option.none => (_on_arrow s p build_grid_spec).last_client_seq } := by
    rw [reduce_eq_merge_dispatch, hd, mergeClientSeq_eq_update]
  have harr : _on_arrow s p build_grid_spec =
      arrowLoop s build_grid_spec (_step_dir (pyUpper (p.dir.getD ""))).1
        (_step_dir (pyUpper (p.dir.getD ""))).2.1
        (_step_dir (pyUpper (p.dir.getD ""))).2.2
        (pyLower (pyUpper (p.dir.getD ""))) 25 s.active_cell := by
    simp only [_on_arrow]
    rw [if_neg hne]
    rfl
  refine ⟨hmap, ?_, ?_⟩
  · intro hscan
    have h1 := (arrowLoop_scan s build_grid_spec
      (_step_dir (pyUpper (p.dir.getD ""))).1 (_step_dir (pyUpper (p.dir.getD ""))).2.1
      (_step_dir (pyUpper (p.dir.getD ""))).2.2 (pyLower (pyUpper (p.dir.getD "")))
      25 s.active_cell).1 hscan
    rw [hred, harr, h1]
    exact ⟨rfl, rfl, rfl, rfl⟩
  · intro c hscan
    have h2 := (arrowLoop_scan s build_grid_spec
      (_step_dir (pyUpper (p.dir.getD ""))).1 (_step_dir (pyUpper (p.dir.getD ""))).2.1
      (_step_dir (pyUpper (p.dir.getD ""))).2.2 (pyLower (pyUpper (p.dir.getD "")))
      25 s.active_cell).2 c hscan
    rw [hred, harr, h2]
    exact ⟨rfl, rfl, rfl⟩

/-- C8 (witness): ARROW up from (1,2) crosses the top boundary (row 0 column 2
is black, row -1 is out of bounds), so the active cell stays, orientation
becomes down, and the slot is re-resolved at the unchanged cell. -/
theorem C8_arrow_semantics_witness :
    (reduce tinyState { type := "ARROW", payload := { dir := some "up" } } build_grid_spec
        emptyTruth).active_cell = tinyState.active_cell ∧
    (reduce tinyState { type := "ARROW", payload := { dir := some "up" } } build_grid_spec
        emptyTruth).orientation = Orientation.V ∧
    (reduce tinyState { type := "ARROW", payload := { dir := some "up" } } build_grid_spec
        emptyTruth).active_slot =
      _resolve_active_slot build_grid_spec tinyState.active_cell Orientation.V false ∧
    (reduce tinyState { type := "ARROW", payload := { dir := some "up" } } build_grid_spec
        emptyTruth).last_action = "arrow:edge" :=
  (C8_arrow_semantics emptyTruth tinyState { dir := some "up" } (by decide)).2.1
    (by decide)

theorem applyGiven_cases (acc : List (Cell × String) × List Cell)
    (item : String × String) :
    applyGiven acc item = acc ∨
    ∃ (cell : Cell) (letter : String),
      dMem acc.1 cell = true ∧
      (applyGiven acc item).1 = dSet acc.1 cell letter ∧
      (applyGiven acc item).2 = acc.2 ++ [cell] := by
  unfold applyGiven
  split
  · exact Or.inl rfl
  · next cell heq =>
    split
    · exact Or.inl rfl
    · next hm =>
      have hmem : dMem acc.1 cell = true := by
        cases hx : dMem acc.1 cell
        · exact absurd hx hm
        · rfl
      dsimp only
      split
      · split
        · exact Or.inr ⟨cell, _, hmem, rfl, rfl⟩
        · exact Or.inl rfl
      · exact Or.inl rfl

theorem foldl_given_mono (items : List (String × String)) :
    ∀ (acc : List (Cell × String) × List Cell) (x : Cell), x ∈ acc.2 →
      x ∈ (items.foldl applyGiven acc).2 := by
  induction items with
  | nil => intro acc x h; exact h
  | cons item rest ih =>
    intro acc x h
    apply ih (applyGiven acc item) x
    rcases applyGiven_cases acc item with heq | ⟨cell, letter, -, -, h2⟩
    · rw [heq]; exact h
    · rw [h2]; exact List.mem_append_left _ h

theorem foldl_given_letters (items : List (String × String)) :
    ∀ (acc : List (Cell × String) × List Cell) (c : Cell),
      c ∉ (items.foldl applyGiven acc).2 →
      dGet (items.foldl applyGiven acc).1 c = dGet acc.1 c := by
  induction items with
  | nil => intro acc c _; rfl
  | cons item rest ih =>
    intro acc c h
    have hstep : dGet (rest.foldl applyGiven (applyGiven acc item)).1 c =
        dGet (applyGiven acc item).1 c := ih (applyGiven acc item) c h
    rcases applyGiven_cases acc item with heq | ⟨cell, letter, -, h1, h2⟩
    · calc dGet ((item :: rest).foldl applyGiven acc).1 c
          = dGet (applyGiven acc item).1 c := hstep
        _ = dGet acc.1 c := by rw [heq]
    · have hcellmem : cell ∈ (rest.foldl applyGiven (applyGiven acc item)).2 := by
        apply foldl_given_mono
        rw [h2]
        exact List.mem_append_right _ (List.mem_singleton.mpr rfl)
      have hne : c ≠ cell := by
        intro hceq
        exact h (hceq ▸ hcellmem)
      calc dGet ((item :: rest).foldl applyGiven acc).1 c
          = dGet (applyGiven acc item).1 c := hstep
        _ = dGet (dSet acc.1 cell letter) c := by rw [h1]
        _ = dGet acc.1 c := by
            rw [dGet_dSet, if_neg (fun he => hne he.symm)]

theorem foldl_given_isSome (items : List (String × String)) :
    ∀ (acc : List (Cell × String) × List Cell) (c : Cell),
      (dGet (items.foldl applyGiven acc).1 c).isSome = (dGet acc.1 c).isSome := by
  induction items with
  | nil => intro acc c; rfl
  | cons item rest ih =>
    intro acc c
    have hstep := ih (applyGiven acc item) c
    rcases applyGiven_cases acc item with heq | ⟨cell, letter, hmem, h1, -⟩
    · calc (dGet ((item :: rest).foldl applyGiven acc).1 c).isSome
          = (dGet (applyGiven acc item).1 c).isSome := hstep
        _ = (dGet acc.1 c).isSome := by rw [heq]
    · calc (dGet ((item :: rest).foldl applyGiven acc).1 c).isSome
          = (dGet (applyGiven acc item).1 c).isSome := hstep
        _ = (dGet (dSet acc.1 cell letter) c).isSome := by rw [h1]
        _ = (dGet acc.1 c).isSome := by
            rw [dGet_dSet]
            by_cases hcc : cell = c
            · rw [if_pos hcc, ← hcc]
              exact (hmem).symm
            · rw [if_neg hcc]

theorem initLetters_playable (c : Cell)
    (h : is_playable build_grid_spec c = true) :
    dGet (initLetters build_grid_spec) c = some "" := by
  obtain ⟨r, cc⟩ := c
  have hb : 0 ≤ r ∧ 0 ≤ cc ∧ r < 5 ∧ cc < 5 := by
    unfold is_playable at h
    split at h
    · cases h
    · next hcond =>
      push_neg at hcond
      exact ⟨hcond.1, hcond.2.1, hcond.2.2.1, hcond.2.2.2⟩
  have hnat : ∀ rn : Nat, rn < 5 → ∀ cn : Nat, cn < 5 →
      is_playable build_grid_spec ((rn : Int), (cn : Int)) = true →
      dGet (initLetters build_grid_spec) ((rn : Int), (cn : Int)) = some "" := by decide
  have hre : r = ((r.toNat : Nat) : Int) := by omega
  have hce : cc = ((cc.toNat : Nat) : Int) := by omega
  rw [hre, hce] at h ⊢
  exact hnat r.toNat (by omega) cc.toNat (by omega) h

/-- C9: over the fixed geometry, the initial state focuses the first playable
cell (0,1) in row-major order with across orientation, the active slot falls
back to the only slot v1 containing that cell, every playable cell that is
not a seeded given holds "", and every playable cell's check mark is
"none". -/
theorem C9_init_state_properties (puzzle : Puzzle) (sid : String) (st : GameState)
    (h : init_state puzzle build_grid_spec sid = some st) :
    st.active_cell = ((0 : Int), (1 : Int)) ∧
    st.orientation = Orientation.H ∧
    st.active_slot = SlotId.v1 ∧
    build_grid_spec.cell_to_slots ((0 : Int), (1 : Int)) = [SlotId.v1] ∧
    first_playable_cell build_grid_spec = some ((0 : Int), (1 : Int)) ∧
    (∀ c : Cell, is_playable build_grid_spec c = true → c ∉ st.given_cells →
       dGet st.grid_letters c = some "") ∧
    (∀ c : Cell, is_playable build_grid_spec c = true →
       dGet st.check_marks c = some CheckState.none) := by
  have hfp : first_playable_cell build_grid_spec = some ((0 : Int), (1 : Int)) := by
    decide
  simp only [init_state, hfp] at h
  rw [Option.some.injEq] at h
  subst h
  refine ⟨rfl, rfl, rfl, by decide, hfp, ?_, ?_⟩
  · intro c hplay hng
    have hfold := foldl_given_letters (puzzle.meta_givens.getD [])
      (initLetters build_grid_spec, []) c hng
    rw [hfold]
    exact initLetters_playable c hplay
  · intro c hplay
    show dGet (((puzzle.meta_givens.getD []).foldl applyGiven
      (initLetters build_grid_spec, [])).1.map fun p => (p.1, CheckState.none)) c =
      some CheckState.none
    rw [dGet_map_const]
    have hsome : (dGet ((puzzle.meta_givens.getD []).foldl applyGiven
        (initLetters build_grid_spec, [])).1 c).isSome = true := by
      rw [foldl_given_isSome]
      show (dGet (initLetters build_grid_spec) c).isSome = true
      rw [initLetters_playable c hplay]
      rfl
    obtain ⟨v, hv⟩ := Option.isSome_iff_exists.mp hsome
    rw [hv]
    rfl

/-- A concrete puzzle with one seeded given at (1,1). -/
def samplePuzzle : Puzzle :=
  { meta_id := some "pz1"
    meta_givens := some [("1,1", " a ")]
    entries := fun sid => { clue := "c", answer := if sid = .hw then "ABCD" else "ABCDE" }
    filename := "p.json" }

/-- The concrete initial state of the sample puzzle. -/
def sampleInit : GameState :=
  (init_state samplePuzzle build_grid_spec "sid-1").getD tinyState

/-- C9 (witness): the initialization theorem applied to the sample puzzle. -/
theorem C9_init_state_properties_witness :
    sampleInit.active_cell = ((0 : Int), (1 : Int)) ∧
    sampleInit.orientation = Orientation.H ∧
    sampleInit.active_slot = SlotId.v1 ∧
    dGet sampleInit.grid_letters ((0 : Int), (3 : Int)) = some "" :=
  have h := C9_init_state_properties samplePuzzle "sid-1" sampleInit (by decide)
  ⟨h.1, h.2.1, h.2.2.1, h.2.2.2.2.2.1 ((0 : Int), (3 : Int)) (by decide) (by decide)⟩

theorem toUpper_of_lower (c : Char) (h1 : 'a' ≤ c) (h2 : c ≤ 'z') :
    ('A' ≤ c.toUpper ∧ c.toUpper ≤ 'Z') ∧ c.toUpper.toUpper = c.toUpper := by
  have hn1 : 97 ≤ c.toNat := by
    rw [Char.le_def] at h1
    exact_mod_cast h1
  have hn2 : c.toNat ≤ 122 := by
    rw [Char.le_def] at h2
    exact_mod_cast h2
  obtain ⟨n, hl, hu, hc⟩ : ∃ n : Nat, 97 ≤ n ∧ n ≤ 122 ∧ c = Char.ofNat n :=
    ⟨c.toNat, hn1, hn2, (Char.ofNat_toNat c).symm⟩
  subst hc
  interval_cases n <;> decide

/-- C10: a TYPE_CHAR whose char is a single lowercase letter a-z is accepted
by uppercasing: the active (non-given) cell ends up holding the corresponding
uppercase letter, and the result is identical to sending the uppercase letter
directly. -/
theorem C10_lowercase_accepted (g : GridSpec) (t : TruthMap) (s : GameState)
    (p : Payload) (c : Char) (hchar : p.char = some ⟨[c]⟩)
    (hlow : 'a' ≤ c ∧ c ≤ 'z') (hng : s.active_cell ∉ s.given_cells) :
    dGet (reduce s { type := "TYPE_CHAR", payload := p } g t).grid_letters s.active_cell =
      some ⟨[c.toUpper]⟩ ∧
    reduce s { type := "TYPE_CHAR", payload := p } g t =
      reduce s { type := "TYPE_CHAR",
                 payload := { p with char := some ⟨[c.toUpper]⟩ } } g t := by
  obtain ⟨hAZ, hidem⟩ := toUpper_of_lower c hlow.1 hlow.2
  have hngb : s.given_cells.contains s.active_cell = false :=
    backspace_given_contains_false s hng
  have hdata : (pyUpper (p.char.getD "")).data = [c.toUpper] := by
    rw [hchar]
    rfl
  have hch_eq : pyUpper (p.char.getD "") = ⟨[c.toUpper]⟩ := by
    rw [hchar]
    rfl
  have hkey : pyUpper (p.char.getD "") =
      pyUpper (({ p with char := some ⟨[c.toUpper]⟩ } : Payload).char.getD "") := by
    rw [hch_eq]
    show (⟨[c.toUpper]⟩ : String) = ⟨[c.toUpper.toUpper]⟩
    rw [hidem]
  constructor
  · have hd : dispatchEvent s { type := "TYPE_CHAR", payload := p } g t =
        _on_type_char s p g := by
      simp [dispatchEvent]
    rw [reduce_eq_merge_dispatch, hd, mergeClientSeq_eq_update,
      type_char_write s p g c.toUpper hdata hAZ hngb]
    show dGet (dSet s.grid_letters s.active_cell (pyUpper (p.char.getD "")))
      s.active_cell = some ⟨[c.toUpper]⟩
    rw [dGet_dSet, if_pos rfl, hch_eq]
  · have htc : _on_type_char s p g =
        _on_type_char s { p with char := some ⟨[c.toUpper]⟩ } g := by
      simp only [_on_type_char]
      rw [hkey]
    rw [reduce_eq_merge_dispatch, reduce_eq_merge_dispatch]
    have hd1 : dispatchEvent s { type := "TYPE_CHAR", payload := p } g t =
        _on_type_char s p g := by
      simp [dispatchEvent]
    have hd2 : dispatchEvent s
        { type := "TYPE_CHAR", payload := { p with char := some ⟨[c.toUpper]⟩ } } g t =
        _on_type_char s { p with char := some ⟨[c.toUpper]⟩ } g := by
      simp [dispatchEvent]
    rw [hd1, hd2, htc]

/-- C10 (witness): typing "q" into the tiny fixture stores "Q" and agrees with
typing "Q" directly. -/
theorem C10_lowercase_accepted_witness :
    dGet (reduce tinyState { type := "TYPE_CHAR", payload := { char := some "q" } }
        build_grid_spec emptyTruth).grid_letters tinyState.active_cell =
      some ⟨['q'.toUpper]⟩ ∧
    reduce tinyState { type := "TYPE_CHAR", payload := { char := some "q" } }
        build_grid_spec emptyTruth =
      reduce tinyState
        { type := "TYPE_CHAR", payload := { char := some ⟨['q'.toUpper]⟩ } }
        build_grid_spec emptyTruth :=
  C10_lowercase_accepted build_grid_spec emptyTruth tinyState { char := some "q" } 'q'
    (by decide) (by decide) (by decide)

end Septago
